import Mathlib

/-!
Shallow embedding of the farmathon-top-scores Cloudflare Worker
(`src/index.ts`): the `scheduled` handler, the conversion `score_from_api`,
and the novelty / ranking / announcement pipeline, together with proofs of
the specification's testable properties.

Modelling conventions:
* Performance (`pp`) and score values are modelled as integers (`Option Int`
  where the code treats the field as nullable / falsy); the worker only
  compares, sorts and looks these values up, so any linearly ordered,
  zero-preserving embedding of the runtime numbers is faithful.
* Network results are inputs to the embedded run: each HTTP response is
  represented by its success flag and decoded body.
* The embedded effect trace records writes to the cursor key `last_seen`
  and webhook `POST`s; reads / writes of the token cache key `osu_v2_token`
  touch a distinct key that no claim mentions.
* `JSON.parse` of the persisted cursor either throws (caught: warn, keep
  `null`) or yields the stored record; `JSON.stringify` / `JSON.parse`
  round-trips on the reduced cursor record.
* `env.FARMATHON_TIMER_LINKSHARE` is declared as a required string binding
  in `Env`, so the timer request is always issued and `timerValueResponse`
  is always a real response.
* JavaScript `parseInt` is modelled for decimal input (leading whitespace,
  optional sign, longest digit prefix, `NaN` when no digit is found); the
  float expression `Math.round(timer_value * (1 - pct / 100))` is idealised
  as exact rational rounding half-up with `NaN` propagation — no claim
  depends on the rounded values themselves.
-/

namespace Farmathon

/-- Modifier object from the v2 API; the worker reads only `acronym`. -/
structure NewMod where
  acronym : String
  deriving DecidableEq

/-- The subset of the beatmap object the worker reads
(`id`, `beatmapset_id`, `version`). -/
structure BeatmapCompact where
  id : Int
  beatmapset_id : Int
  version : String
  deriving DecidableEq

/-- The subset of the beatmapset object the worker reads. -/
structure BeatmapsetCompact where
  artist : String
  creator : String
  title : String
  deriving DecidableEq

/-- The fields of `NewUserScore` (= `NewScore` plus beatmap / beatmapset)
that the worker reads. `pp` is nullable at runtime and is checked for
JavaScript truthiness, hence `Option Int`. -/
structure NewUserScore where
  classic_total_score : Int
  mods : List NewMod
  ended_at : String
  rank : String
  id : Int
  pp : Option Int
  beatmap : BeatmapCompact
  beatmapset : BeatmapsetCompact
  deriving DecidableEq

/-- The persisted compat cursor record (`interface ScuffedScore`). -/
structure ScuffedScore where
  score : Int
  mod_acronyms : List String
  created_at : String
  rank : String
  id : Int
  pp : Option Int
  beatmap_id : Int
  beatmapset_id : Int
  diff_name : String
  artist : String
  set_mapper : String
  title : String
  deriving DecidableEq

/-- `UserBestScore`: only `pp` is read, and it is never null on best scores. -/
structure UserBestScore where
  pp : Int
  deriving DecidableEq

/-- Direct translation of `score_from_api` (src/index.ts lines 141-156). -/
def score_from_api (api_score : NewUserScore) : ScuffedScore :=
  { score := api_score.classic_total_score,
    mod_acronyms := api_score.mods.map (fun mod => mod.acronym),
    created_at := api_score.ended_at,
    rank := api_score.rank,
    id := api_score.id,
    pp := api_score.pp,
    beatmap_id := api_score.beatmap.id,
    beatmapset_id := api_score.beatmap.beatmapset_id,
    diff_name := api_score.beatmap.version,
    artist := api_score.beatmapset.artist,
    set_mapper := api_score.beatmapset.creator,
    title := api_score.beatmapset.title }

/-- A JavaScript number restricted to the values arising here: an integer
or `NaN`. -/
inductive JSNum where
  | int (n : Int)
  | nan
  deriving DecidableEq

/-- JavaScript `!=` on such numbers: `NaN` is unequal to everything,
itself included. -/
def JSNum.neq : JSNum → JSNum → Bool
  | JSNum.int a, JSNum.int b => a != b
  | _, _ => true

/-- Value of a digit string (most significant first). -/
def digitsToNat (ds : List Char) : Nat :=
  ds.foldl (fun acc c => 10 * acc + (c.toNat - 48)) 0

/-- JavaScript `parseInt(s)` for decimal input: skip leading whitespace,
read an optional sign, take the longest digit prefix; `NaN` when no digit
is found. (Hex auto-detection of an `0x` prefix is irrelevant for the
timer endpoint's plain-integer body.) -/
def parseIntJS (s : String) : JSNum :=
  let cs := s.data.dropWhile (fun c => c.isWhitespace)
  let signed : Int × List Char :=
    match cs with
    | '-' :: rest => (-1, rest)
    | '+' :: rest => (1, rest)
    | _ => (1, cs)
  let ds := signed.2.takeWhile (fun c => c.isDigit)
  if ds.isEmpty then JSNum.nan else JSNum.int (signed.1 * (digitsToNat ds : Int))

/-- The persisted `last_seen` key as read at the start of a run: missing,
a string on which `JSON.parse` throws (caught: warn and keep `null`), or a
stored cursor record. -/
inductive StoredCursor where
  | absent
  | corrupt
  | valid (s : ScuffedScore)
  deriving DecidableEq

/-- Lines 176-183: the parse of the persisted cursor, with the catch
turning corruption into an empty cursor. -/
def parse_cursor : StoredCursor → Option ScuffedScore
  | StoredCursor.absent => none
  | StoredCursor.corrupt => none
  | StoredCursor.valid s => some s

/-- The decoded outcome of the OAuth token-exchange request. -/
structure TokenFetchResult where
  ok : Bool
  access_token : String
  deriving DecidableEq

/-- `get_osu_v2_token` (lines 102-139) with the default `renew = false`:
return the cached token when present; otherwise exchange client
credentials, yielding `null` on a non-success response. The caching `put`
on success targets the token key, not the cursor key. -/
def get_osu_v2_token (cached_token : Option String) (resp : TokenFetchResult) :
    Option String :=
  match cached_token with
  | some t => some t
  | none => if resp.ok then some resp.access_token else none

/-- `.sort((a, b) => b - a)`: the descending sort of a list of integers
(unique for any sorting algorithm, since duplicate integers are
indistinguishable). -/
def sortDesc (l : List Int) : List Int :=
  List.insertionSort (· ≥ ·) l

/-- Line 236: `best_scores.map(score => score.pp).sort((a, b) => b - a)`. -/
def top_100_pp_values (best_scores : List UserBestScore) : List Int :=
  sortDesc (best_scores.map (fun score => score.pp))

/-- Line 237: `top_100_pp_values[top_100_pp_values.length - 1]`
(JavaScript indexing: `undefined` on an empty array). -/
def top_100_pp (best_scores : List UserBestScore) : Option Int :=
  (top_100_pp_values best_scores).getLast?

/-- Lines 241-243: `-1`, unless the cursor is present with a non-null
timestamp, in which case
`recent_scores.findIndex(score => score.ended_at == last_seen_score?.created_at)`. -/
def last_seen_index (recent_scores : List NewUserScore)
    (last_seen_score : Option ScuffedScore) : Int :=
  match last_seen_score with
  | none => -1
  | some c =>
    match recent_scores.findIdx? (fun score => score.ended_at == c.created_at) with
    | none => -1
    | some i => (i : Int)

/-- The scores walked by the candidate loop (lines 245-253), in loop
order: nothing when the cursor sits at position 0, otherwise
`recent_scores[i]` for `i = start_index, start_index - 1, ..., 0` with
`start_index = recent_scores.length - 1` for a missing cursor and
`start_index = last_seen_index` otherwise. -/
def candidate_window (recent_scores : List NewUserScore) (idx : Int) :
    List NewUserScore :=
  if idx = 0 then []
  else
    (recent_scores.take
      ((if idx = -1 then recent_scores.length - 1 else idx.toNat) + 1)).reverse

/-- The loop body's filter `score.pp && score.pp >= top_100_pp`:
JavaScript truthiness discards a `null` (or `0`) `pp`, and `>=` against an
`undefined` threshold (empty best list) is false. -/
def pp_qualifies (pp : Option Int) (thr : Option Int) : Bool :=
  match pp, thr with
  | some v, some t => v != 0 && decide (t ≤ v)
  | _, _ => false

/-- The `new_scores` array built by lines 239-254. -/
def new_scores_of (recent_scores : List NewUserScore)
    (last_seen_score : Option ScuffedScore) (thr : Option Int) :
    List NewUserScore :=
  (candidate_window recent_scores (last_seen_index recent_scores last_seen_score)).filter
    (fun score => pp_qualifies score.pp thr)

/-- JavaScript `Array.prototype.indexOf` on the pp-value list (`-1` when
absent; `indexOf(null)` is `-1`). -/
def js_indexOf (l : List Int) (x : Option Int) : Int :=
  match x with
  | none => -1
  | some v =>
    match l.findIdx? (fun a => a == v) with
    | none => -1
    | some i => (i : Int)

/-- Line 270: `score_rank = top_100_pp_values.indexOf(score.pp) + 1`,
applied to a fetched score (`score_from_api` preserves `pp`). -/
def rank_of (sorted_pps : List Int) (s : NewUserScore) : Int :=
  js_indexOf sorted_pps s.pp + 1

/-- One per-week line of the timer block. -/
structure WeekReduction where
  week : Nat
  reduced : JSNum
  pct : Nat
  deriving DecidableEq

/-- The optional timer block of the message (lines 283-337). -/
structure TimerAug where
  timer_value : JSNum
  reductions : List WeekReduction
  deriving DecidableEq

/-- The semantic content of one webhook message body: the announced score,
the displayed rank, and the timer block appended exactly when
`timer_value != -1` (the string formatting itself carries no further
information relevant to any claim). -/
structure Announcement where
  score : ScuffedScore
  score_rank : Int
  augmentation : Option TimerAug
  deriving DecidableEq

/-- One entry of the `ranges` table (lines 298-304). -/
structure RankRange where
  min : Int
  max : Int
  tier : Nat
  deriving DecidableEq

/-- Lines 298-304. -/
def ranges : List RankRange :=
  [⟨1, 1, 4⟩, ⟨2, 5, 3⟩, ⟨6, 25, 2⟩, ⟨26, 50, 1⟩, ⟨51, 100, 0⟩]

/-- Lines 293-296: reduction percentages for weeks 3 and 4, indexed by
tier. -/
def timer_reduction_pcts : List (Nat × List Nat) :=
  [(3, [15, 20, 35, 90, 99]), (4, [20, 25, 40, 95, 100])]

/-- Lines 306-326: first matching range's tier, default 0. -/
def reduction_tier (score_rank : Int) : Nat :=
  match ranges.find?
      (fun range => decide (range.min ≤ score_rank) && decide (score_rank ≤ range.max)) with
  | some range => range.tier
  | none => 0

/-- Line 329: `Math.round(timer_value * (1 - pct / 100))`, idealised to
exact rational rounding half-up; `NaN` propagates through the arithmetic
and through `Math.round`. -/
def jsTimerReduce : JSNum → Nat → JSNum
  | JSNum.nan, _ => JSNum.nan
  | JSNum.int t, pct => JSNum.int (Int.fdiv (2 * (t * (100 - (pct : Int))) + 100) 200)

/-- Lines 328-336: the per-week reduced timer values and percentages. -/
def mk_augmentation (score_rank : Int) (tv : JSNum) : TimerAug :=
  { timer_value := tv,
    reductions :=
      timer_reduction_pcts.map (fun wp =>
        { week := wp.1,
          reduced := jsTimerReduce tv (wp.2.getD (reduction_tier score_rank) 0),
          pct := wp.2.getD (reduction_tier score_rank) 0 }) }

/-- The message body built by lines 276-337: the timer block is included
exactly when `timer_value != -1` (JavaScript `!=`, so also when the value
is `NaN`). -/
def mk_announcement (score : ScuffedScore) (score_rank : Int) (tv : JSNum) :
    Announcement :=
  { score := score,
    score_rank := score_rank,
    augmentation :=
      if JSNum.neq tv (JSNum.int (-1)) then some (mk_augmentation score_rank tv)
      else none }

/-- Observable state-changing effects of one run, in program order: the
cursor `put` and the webhook `POST`. -/
inductive Event where
  | cursorWrite (s : ScuffedScore)
  | webhookPost (a : Announcement)
  deriving DecidableEq

/-- The `ctx.waitUntil` loop (lines 264-360): walk `new_scores` in order,
skip rank-0 scores (`continue`), send one webhook message and `break`
unconditionally after it. -/
def announce_loop (sorted_pps : List Int) (tv : JSNum) :
    List NewUserScore → List Event
  | [] => []
  | api_score :: rest =>
    if js_indexOf sorted_pps (score_from_api api_score).pp + 1 = 0 then
      announce_loop sorted_pps tv rest
    else
      [Event.webhookPost
        (mk_announcement (score_from_api api_score)
          (js_indexOf sorted_pps (score_from_api api_score).pp + 1) tv)]

/-- Line 258: `latest_score.ended_at != last_seen_score?.created_at`
(a string is always `!=` `undefined`). -/
def cursorDiffers (latest_score : NewUserScore)
    (last_seen_score : Option ScuffedScore) : Bool :=
  match last_seen_score with
  | none => true
  | some c => latest_score.ended_at != c.created_at

/-- One scheduled invocation's environment and decoded network results. -/
structure RunInput where
  cached_token : Option String
  token_resp : TokenFetchResult
  stored_cursor : StoredCursor
  recent_ok : Bool
  recent : List NewUserScore
  best_ok : Bool
  best : List UserBestScore
  timer_ok : Bool
  timer_text : String
  deriving DecidableEq

/-- Lines 199-231: `timer_value` defaults to `-1`; on a successful timer
response it becomes `parseInt` of the body. -/
def run_timer_value (inp : RunInput) : JSNum :=
  if inp.timer_ok then parseIntJS inp.timer_text else JSNum.int (-1)

/-- The run's `new_scores` array. -/
def run_new_scores (inp : RunInput) : List NewUserScore :=
  new_scores_of inp.recent (parse_cursor inp.stored_cursor) (top_100_pp inp.best)

/-- The `scheduled` handler (lines 170-361) as the ordered list of its
effects: abort on a `null` token or a failed mandatory fetch; otherwise
conditionally write the cursor (lines 256-262) and then run the detached
announcement loop. -/
def run_trace (inp : RunInput) : List Event :=
  match get_osu_v2_token inp.cached_token inp.token_resp with
  | none => []
  | some _ =>
    if inp.recent_ok = false then []
    else if inp.best_ok = false then []
    else
      (match inp.recent with
        | [] => []
        | latest_score :: _ =>
          if cursorDiffers latest_score (parse_cursor inp.stored_cursor) then
            [Event.cursorWrite (score_from_api latest_score)]
          else []) ++
      announce_loop (top_100_pp_values inp.best) (run_timer_value inp)
        (run_new_scores inp)

/-- The webhook messages posted during the run, in order. -/
def run_messages (inp : RunInput) : List Announcement :=
  (run_trace inp).filterMap (fun e =>
    match e with
    | Event.webhookPost a => some a
    | _ => none)

/-- Effect of one event on the persisted cursor key. -/
def apply_event : StoredCursor → Event → StoredCursor
  | _, Event.cursorWrite s => StoredCursor.valid s
  | st, Event.webhookPost _ => st

/-- The cursor key's value after the run (the stored JSON round-trips). -/
def cursor_after (inp : RunInput) : StoredCursor :=
  (run_trace inp).foldl apply_event inp.stored_cursor

/-- Boolean form of "the displayed rank is nonzero", i.e. the score's `pp`
was found in the best list (`score_rank == 0` means `continue`). -/
def nonzero_rank (sorted_pps : List Int) (s : NewUserScore) : Bool :=
  rank_of sorted_pps s != 0

/-! ### Concrete sample data for witnesses and counterexamples -/

/-- A recent-list entry with the given timestamp, pp and id. -/
def sampleScore (ts : String) (pp : Option Int) (sid : Int) : NewUserScore :=
  { classic_total_score := 1000000, mods := [⟨"HD"⟩], ended_at := ts, rank := "S",
    id := sid, pp := pp, beatmap := ⟨42, 7, "Insane"⟩,
    beatmapset := ⟨"artist", "mapper", "title"⟩ }

/-- A best list whose pp values are 300, 500, 400 (min 300). -/
def sampleBest : List UserBestScore := [⟨300⟩, ⟨500⟩, ⟨400⟩]

/-- A run input template: both mandatory fetches succeed, timer fetch
fails (so no timer augmentation), cursor absent. -/
def sampleInput (recent : List NewUserScore) : RunInput :=
  { cached_token := some "tok", token_resp := ⟨true, "tok"⟩,
    stored_cursor := StoredCursor.absent, recent_ok := true, recent := recent,
    best_ok := true, best := sampleBest, timer_ok := false, timer_text := "" }

/-- C1 failing input: `recent = [s2, s1]` (newest first) where `s1`, at
position `k = 1`, is exactly the persisted cursor's score and has a
qualifying pp. -/
def c1Score1 : NewUserScore := sampleScore "t1" (some 500) 1

def c1Score2 : NewUserScore := sampleScore "t2" (some 400) 2

def c1Input : RunInput :=
  { sampleInput [c1Score2, c1Score1] with
    stored_cursor := StoredCursor.valid (score_from_api c1Score1) }

/-- C2 witness input: empty cursor, two candidates and both qualify. -/
def c2Input : RunInput :=
  sampleInput [sampleScore "t2" (some 400) 2, sampleScore "t1" (some 500) 1]

/-- C3 counterexample input: empty cursor; the newest candidate (id 2)
qualifies, yet the oldest qualifying candidate (id 1) is announced. -/
def c3Newest : NewUserScore := sampleScore "t2" (some 400) 2

def c3Oldest : NewUserScore := sampleScore "t1" (some 500) 1

def c3Input : RunInput := sampleInput [c3Newest, c3Oldest]

/-- C3 witness input for the amended claim. -/
def c3WitnessInput : RunInput :=
  sampleInput [sampleScore "u3" (some 350) 13, sampleScore "u2" none 12,
    sampleScore "u1" (some 500) 11]

/-- C4 witness input: nonempty recent list whose newest entry differs from
the stored cursor. -/
def c4Latest : NewUserScore := sampleScore "t9" (some 400) 9

def c4Input : RunInput := sampleInput [c4Latest, sampleScore "t8" (some 500) 8]

/-- C5 witness input: the recent-scores fetch fails. -/
def c5Input : RunInput :=
  { sampleInput [sampleScore "t1" (some 500) 1] with recent_ok := false }

/-- C6 witness input: a stored cursor whose timestamp matches nothing in
the fetched window. -/
def c6Input : RunInput :=
  { sampleInput [sampleScore "t2" (some 400) 2, sampleScore "t1" (some 500) 1] with
    stored_cursor := StoredCursor.valid (score_from_api (sampleScore "t0" (some 100) 0)) }

/-- C7 witness input: one null-pp candidate, one below-threshold candidate,
one qualifying candidate. -/
def c7Input : RunInput :=
  sampleInput [sampleScore "t3" (some 400) 3, sampleScore "t2" none 2,
    sampleScore "t1" (some 100) 1]

/-- C8 witness input: empty cursor, nonempty recent list. -/
def c8Input : RunInput :=
  sampleInput [sampleScore "t2" (some 400) 2, sampleScore "t1" (some 500) 1]

/-- C9 failing input: the timer endpoint responds successfully with a body
that does not parse as a number, and one candidate qualifies. -/
def c9Input : RunInput :=
  { sampleInput [sampleScore "t1" (some 500) 1] with
    timer_ok := true, timer_text := "abc" }

/-! ### Helper lemmas -/

theorem mem_sortDesc {l : List Int} {a : Int} : a ∈ sortDesc l ↔ a ∈ l :=
  (List.perm_insertionSort _ l).mem_iff

theorem sortDesc_sorted (l : List Int) : List.Sorted (· ≥ ·) (sortDesc l) :=
  List.sorted_insertionSort _ l

theorem mem_of_getLast?_eq_some {α : Type} {l : List α} {a : α}
    (h : l.getLast? = some a) : a ∈ l := by
  rcases List.getLast?_eq_some_iff.mp h with ⟨ys, rfl⟩
  simp

theorem sorted_ge_getLast?_le :
    ∀ (l : List Int), List.Sorted (· ≥ ·) l → ∀ m : Int,
      l.getLast? = some m → ∀ x ∈ l, m ≤ x
  | [], _, _, hm => by simp at hm
  | [a], _, m, hm => by
    have hma : a = m := by simpa using hm
    intro x hx
    have hxa : x = a := by simpa using hx
    rw [hxa, hma]
  | a :: b :: t2, hs, m, hm => by
    rw [List.getLast?_cons_cons] at hm
    have hsc := List.sorted_cons.mp hs
    intro x hx
    rcases List.mem_cons.mp hx with rfl | hx2
    · exact hsc.1 m (mem_of_getLast?_eq_some hm)
    · exact sorted_ge_getLast?_le (b :: t2) hsc.2 m hm x hx2

theorem js_indexOf_eq_neg_one_of_not_mem {l : List Int} {v : Int} (h : v ∉ l) :
    js_indexOf l (some v) = -1 := by
  have hf : l.findIdx? (fun a => a == v) = none := by
    rw [List.findIdx?_eq_none_iff]
    intro x hx
    simp only [beq_eq_false_iff_ne]
    exact fun e => h (e ▸ hx)
  simp [js_indexOf, hf]

theorem js_indexOf_nonneg_of_mem {l : List Int} {v : Int} (h : v ∈ l) :
    0 ≤ js_indexOf l (some v) := by
  cases hf : l.findIdx? (fun a => a == v) with
  | none =>
    rw [List.findIdx?_eq_none_iff] at hf
    have := hf v h
    simp at this
  | some i =>
    simp only [js_indexOf, hf]
    exact Int.natCast_nonneg i

theorem mem_of_js_indexOf_ne_neg_one {l : List Int} {v : Int}
    (h : js_indexOf l (some v) ≠ -1) : v ∈ l := by
  by_contra hm
  exact h (js_indexOf_eq_neg_one_of_not_mem hm)

theorem announce_loop_eq_find? (sorted_pps : List Int) (tv : JSNum) (l : List NewUserScore) :
    announce_loop sorted_pps tv l =
      match l.find? (nonzero_rank sorted_pps) with
      | none => []
      | some s =>
        [Event.webhookPost (mk_announcement (score_from_api s) (rank_of sorted_pps s) tv)] := by
  induction l with
  | nil => rfl
  | cons a t ih =>
    by_cases h : js_indexOf sorted_pps (score_from_api a).pp + 1 = 0
    · have hr : rank_of sorted_pps a = 0 := h
      have hp : nonzero_rank sorted_pps a = false := by
        simp [nonzero_rank, hr]
      simp only [announce_loop, if_pos h, ih, List.find?_cons, hp]
    · have hr : rank_of sorted_pps a ≠ 0 := h
      have hp : nonzero_rank sorted_pps a = true := by
        simp [nonzero_rank]
        exact hr
      simp only [announce_loop, if_neg h, List.find?_cons, hp]
      rfl

theorem announce_loop_only_posts (sorted_pps : List Int) (tv : JSNum) (l : List NewUserScore) :
    ∀ e ∈ announce_loop sorted_pps tv l, ∃ a, e = Event.webhookPost a := by
  induction l with
  | nil =>
    intro e he
    simp [announce_loop] at he
  | cons a t ih =>
    intro e he
    by_cases h : js_indexOf sorted_pps (score_from_api a).pp + 1 = 0
    · rw [announce_loop, if_pos h] at he
      exact ih e he
    · rw [announce_loop, if_neg h] at he
      rcases List.mem_singleton.mp he with rfl
      exact ⟨_, rfl⟩

theorem foldl_apply_event_posts (es : List Event)
    (h : ∀ e ∈ es, ∃ a, e = Event.webhookPost a) (st : StoredCursor) :
    es.foldl apply_event st = st := by
  induction es generalizing st with
  | nil => rfl
  | cons e t ih =>
    rcases h e (List.mem_cons_self e t) with ⟨a, rfl⟩
    exact ih (fun e' he' => h e' (List.mem_cons_of_mem _ he')) st

theorem run_trace_success (inp : RunInput)
    (htok : (get_osu_v2_token inp.cached_token inp.token_resp).isSome = true)
    (hrec : inp.recent_ok = true) (hbest : inp.best_ok = true) :
    run_trace inp =
      (match inp.recent with
        | [] => []
        | latest_score :: _ =>
          if cursorDiffers latest_score (parse_cursor inp.stored_cursor) then
            [Event.cursorWrite (score_from_api latest_score)]
          else []) ++
      announce_loop (top_100_pp_values inp.best) (run_timer_value inp)
        (run_new_scores inp) := by
  unfold run_trace
  cases htk : get_osu_v2_token inp.cached_token inp.token_resp with
  | none =>
    rw [htk] at htok
    simp at htok
  | some t => simp [hrec, hbest]

theorem run_trace_abort (inp : RunInput)
    (h : get_osu_v2_token inp.cached_token inp.token_resp = none ∨
      inp.recent_ok = false ∨ inp.best_ok = false) :
    run_trace inp = [] := by
  unfold run_trace
  rcases h with h | h | h
  · rw [h]
  · cases htk : get_osu_v2_token inp.cached_token inp.token_resp with
    | none => rfl
    | some t => simp [h]
  · cases htk : get_osu_v2_token inp.cached_token inp.token_resp with
    | none => rfl
    | some t =>
      cases hr : inp.recent_ok with
      | false => simp
      | true => simp [h]

theorem cursor_after_success (inp : RunInput)
    (htok : (get_osu_v2_token inp.cached_token inp.token_resp).isSome = true)
    (hrec : inp.recent_ok = true) (hbest : inp.best_ok = true) :
    cursor_after inp =
      match inp.recent with
      | [] => inp.stored_cursor
      | latest_score :: _ =>
        if cursorDiffers latest_score (parse_cursor inp.stored_cursor) then
          StoredCursor.valid (score_from_api latest_score)
        else inp.stored_cursor := by
  unfold cursor_after
  rw [run_trace_success inp htok hrec hbest, List.foldl_append]
  cases hrc : inp.recent with
  | nil =>
    exact foldl_apply_event_posts _ (announce_loop_only_posts _ _ _) _
  | cons latest rest =>
    by_cases hd : cursorDiffers latest (parse_cursor inp.stored_cursor)
    · simp only [hd, if_true]
      exact foldl_apply_event_posts _ (announce_loop_only_posts _ _ _) _
    · simp only [hd, if_false]
      exact foldl_apply_event_posts _ (announce_loop_only_posts _ _ _) _

theorem run_messages_success (inp : RunInput)
    (htok : (get_osu_v2_token inp.cached_token inp.token_resp).isSome = true)
    (hrec : inp.recent_ok = true) (hbest : inp.best_ok = true) :
    run_messages inp =
      match (run_new_scores inp).find? (nonzero_rank (top_100_pp_values inp.best)) with
      | none => []
      | some s =>
        [mk_announcement (score_from_api s)
          (rank_of (top_100_pp_values inp.best) s) (run_timer_value inp)] := by
  unfold run_messages
  rw [run_trace_success inp htok hrec hbest, List.filterMap_append,
    announce_loop_eq_find?]
  have hcw : (match inp.recent with
      | [] => ([] : List Event)
      | latest_score :: _ =>
        if cursorDiffers latest_score (parse_cursor inp.stored_cursor) then
          [Event.cursorWrite (score_from_api latest_score)]
        else []).filterMap (fun e =>
          match e with
          | Event.webhookPost a => some a
          | _ => none) = [] := by
    cases hrc : inp.recent with
    | nil => rfl
    | cons latest rest =>
      by_cases hd : cursorDiffers latest (parse_cursor inp.stored_cursor)
      · simp [hd]
      · simp [hd]
  rw [hcw, List.nil_append]
  cases hf : (run_new_scores inp).find? (nonzero_rank (top_100_pp_values inp.best)) with
  | none => rfl
  | some s => rfl

/-! ### Claim theorems -/

/-- C1 (failing evaluation): the claim says that with the cursor's
timestamp found at position k > 0 the candidates are exactly positions
k−1 … 0 and the cursor's own score at position k is never a candidate.
On `c1Input` the cursor sits at position k = 1, yet the loop starts at
index 1: the cursor's own score `c1Score1` (id 1) is the first candidate
and is announced again. -/
theorem C1_cursor_own_score_announced :
    last_seen_index c1Input.recent (parse_cursor c1Input.stored_cursor) = 1 ∧
    candidate_window c1Input.recent 1 = [c1Score1, c1Score2] ∧
    (run_messages c1Input).map (fun a => a.score.id) = [1] := by decide

/-- C5: a run in which token acquisition returns null, or either mandatory
score fetch returns a non-success status, produces no effects at all: an
empty trace, the cursor unchanged, and no announcement. -/
theorem C5_abort_preserves_state (inp : RunInput)
    (h : get_osu_v2_token inp.cached_token inp.token_resp = none ∨
      inp.recent_ok = false ∨ inp.best_ok = false) :
    run_trace inp = [] ∧ cursor_after inp = inp.stored_cursor ∧
      run_messages inp = [] := by
  have ht := run_trace_abort inp h
  refine ⟨ht, ?_, ?_⟩
  · unfold cursor_after
    rw [ht]
    rfl
  · unfold run_messages
    rw [ht]
    rfl

theorem C5_abort_preserves_state_witness :
    (get_osu_v2_token c5Input.cached_token c5Input.token_resp = none ∨
      c5Input.recent_ok = false ∨ c5Input.best_ok = false) ∧
    (run_trace c5Input = [] ∧ cursor_after c5Input = c5Input.stored_cursor ∧
      run_messages c5Input = []) :=
  ⟨Or.inr (Or.inl (by decide)),
    C5_abort_preserves_state c5Input (Or.inr (Or.inl (by decide)))⟩

/-- C6: when the persisted cursor is absent, unparsable, or its timestamp
matches no entry of the fetched recent list, the search index is -1 (the
cursor is treated as empty) and the candidate set is the entire recent
list of length K, oldest first. The embedded run is a total function, so
no such input crashes it. -/
theorem C6_catchup_policy (inp : RunInput)
    (h : inp.stored_cursor = StoredCursor.absent ∨
      inp.stored_cursor = StoredCursor.corrupt ∨
      ∃ c, inp.stored_cursor = StoredCursor.valid c ∧
        ∀ s ∈ inp.recent, s.ended_at ≠ c.created_at) :
    last_seen_index inp.recent (parse_cursor inp.stored_cursor) = -1 ∧
    candidate_window inp.recent
        (last_seen_index inp.recent (parse_cursor inp.stored_cursor)) =
      inp.recent.reverse ∧
    (candidate_window inp.recent
        (last_seen_index inp.recent (parse_cursor inp.stored_cursor))).length =
      inp.recent.length := by
  have hidx : last_seen_index inp.recent (parse_cursor inp.stored_cursor) = -1 := by
    rcases h with h | h | ⟨c, h, hc⟩
    · rw [h]
      rfl
    · rw [h]
      rfl
    · rw [h]
      simp only [parse_cursor, last_seen_index]
      have hnone : inp.recent.findIdx? (fun score => score.ended_at == c.created_at) = none := by
        rw [List.findIdx?_eq_none_iff]
        intro s hs
        simp only [beq_eq_false_iff_ne]
        exact hc s hs
      rw [hnone]
  have hwin : candidate_window inp.recent (-1) = inp.recent.reverse := by
    unfold candidate_window
    cases hrc : inp.recent with
    | nil => rfl
    | cons a t =>
      have hlen : (a :: t).length - 1 + 1 = (a :: t).length := by simp
      rw [if_neg (show ¬((-1 : Int) = 0) by decide), if_pos rfl, hlen,
        List.take_length]
  refine ⟨hidx, ?_, ?_⟩
  · rw [hidx]
    exact hwin
  · rw [hidx, hwin, List.length_reverse]

theorem C6_catchup_policy_witness :
    (c6Input.stored_cursor = StoredCursor.absent ∨
      c6Input.stored_cursor = StoredCursor.corrupt ∨
      ∃ c, c6Input.stored_cursor = StoredCursor.valid c ∧
        ∀ s ∈ c6Input.recent, s.ended_at ≠ c.created_at) ∧
    (last_seen_index c6Input.recent (parse_cursor c6Input.stored_cursor) = -1 ∧
    candidate_window c6Input.recent
        (last_seen_index c6Input.recent (parse_cursor c6Input.stored_cursor)) =
      c6Input.recent.reverse ∧
    (candidate_window c6Input.recent
        (last_seen_index c6Input.recent (parse_cursor c6Input.stored_cursor))).length =
      c6Input.recent.length) :=
  ⟨Or.inr (Or.inr ⟨score_from_api (sampleScore "t0" (some 100) 0), by decide, by decide⟩),
    C6_catchup_policy c6Input
      (Or.inr (Or.inr ⟨score_from_api (sampleScore "t0" (some 100) 0), by decide, by decide⟩))⟩

/-- C9 (failing evaluation): the claim says a failed parse of the timer
body omits the timer augmentation. On `c9Input` the timer fetch succeeds
with the unparsable body "abc": `parseInt` yields `NaN`, `NaN != -1` is
true in JavaScript, and the announcement carries a timer augmentation
built from `NaN` instead of omitting it. -/
theorem C9_nan_timer_augmentation_included :
    parseIntJS c9Input.timer_text = JSNum.nan ∧
    c9Input.timer_ok = true ∧
    (run_messages c9Input).map (fun a => a.augmentation.map TimerAug.timer_value) =
      [some JSNum.nan] := by decide

/-- C10: `score_from_api` preserves the completion timestamp exactly
(`created_at = ended_at`), so a cursor written from the newest recent
entry is found by the next run's timestamp-equality search at position 0
when that entry is still the newest. -/
theorem C10_cursor_roundtrip (s : NewUserScore) (rest : List NewUserScore) :
    (score_from_api s).created_at = s.ended_at ∧
    last_seen_index (s :: rest) (some (score_from_api s)) = 0 := by
  refine ⟨rfl, ?_⟩
  simp [last_seen_index, List.findIdx?_cons, score_from_api]

/-- C2: in a run that reaches the announcement phase with at least two
qualifying candidates (pp at least the best-list minimum — membership in
`new_scores` — and present in the best list — nonzero rank), exactly one
webhook message is sent, for the first qualifying candidate, and iteration
stops there. -/
theorem C2_single_announcement (inp : RunInput)
    (htok : (get_osu_v2_token inp.cached_token inp.token_resp).isSome = true)
    (hrec : inp.recent_ok = true) (hbest : inp.best_ok = true)
    (hq : 2 ≤ (run_new_scores inp).countP (nonzero_rank (top_100_pp_values inp.best))) :
    (run_messages inp).length = 1 ∧
    ∃ s, (run_new_scores inp).find? (nonzero_rank (top_100_pp_values inp.best)) = some s ∧
      run_messages inp =
        [mk_announcement (score_from_api s)
          (rank_of (top_100_pp_values inp.best) s) (run_timer_value inp)] := by
  have hpos : 0 < (run_new_scores inp).countP (nonzero_rank (top_100_pp_values inp.best)) := by
    omega
  rw [List.countP_pos_iff] at hpos
  obtain ⟨x, hx, hpx⟩ := hpos
  have hfind : ((run_new_scores inp).find? (nonzero_rank (top_100_pp_values inp.best))).isSome = true := by
    rw [List.find?_isSome]
    exact ⟨x, hx, hpx⟩
  obtain ⟨s, hs⟩ := Option.isSome_iff_exists.mp hfind
  have hm := run_messages_success inp htok hrec hbest
  rw [hs] at hm
  refine ⟨by rw [hm]; rfl, s, hs, hm⟩

theorem C2_single_announcement_witness :
    ((get_osu_v2_token c2Input.cached_token c2Input.token_resp).isSome = true ∧
      c2Input.recent_ok = true ∧ c2Input.best_ok = true ∧
      2 ≤ (run_new_scores c2Input).countP (nonzero_rank (top_100_pp_values c2Input.best))) ∧
    ((run_messages c2Input).length = 1 ∧
      ∃ s, (run_new_scores c2Input).find? (nonzero_rank (top_100_pp_values c2Input.best)) = some s ∧
        run_messages c2Input =
          [mk_announcement (score_from_api s)
            (rank_of (top_100_pp_values c2Input.best) s) (run_timer_value c2Input)]) :=
  ⟨⟨by decide, by decide, by decide, by decide⟩,
    C2_single_announcement c2Input (by decide) (by decide) (by decide) (by decide)⟩

/-- C3 (counterexample): on `c3Input` both candidates qualify; the newest
qualifying candidate is `c3Newest` (id 2, at position 0), yet the single
announcement is for id 1, the oldest qualifying candidate — refuting
"the announcement is for the most recently produced (newest) qualifying
candidate". -/
theorem C3_newest_not_announced :
    c3Input.recent.head? = some c3Newest ∧
    nonzero_rank (top_100_pp_values c3Input.best) c3Newest = true ∧
    c3Newest ∈ run_new_scores c3Input ∧
    (run_messages c3Input).map (fun a => a.score.id) = [1] ∧
    c3Newest.id = 2 := by decide

/-- C3 (amended): among the run's qualifying candidates, the single
announcement that is sent is for the first qualifying entry of the
oldest-first candidate list — the oldest qualifying candidate, not the
newest. -/
theorem C3_announces_oldest_qualifying (inp : RunInput)
    (htok : (get_osu_v2_token inp.cached_token inp.token_resp).isSome = true)
    (hrec : inp.recent_ok = true) (hbest : inp.best_ok = true) :
    run_messages inp =
      match (run_new_scores inp).find? (nonzero_rank (top_100_pp_values inp.best)) with
      | none => []
      | some s =>
        [mk_announcement (score_from_api s)
          (rank_of (top_100_pp_values inp.best) s) (run_timer_value inp)] :=
  run_messages_success inp htok hrec hbest

theorem C3_announces_oldest_qualifying_witness :
    ((get_osu_v2_token c3WitnessInput.cached_token c3WitnessInput.token_resp).isSome = true ∧
      c3WitnessInput.recent_ok = true ∧ c3WitnessInput.best_ok = true) ∧
    run_messages c3WitnessInput =
      match (run_new_scores c3WitnessInput).find?
          (nonzero_rank (top_100_pp_values c3WitnessInput.best)) with
      | none => []
      | some s =>
        [mk_announcement (score_from_api s)
          (rank_of (top_100_pp_values c3WitnessInput.best) s)
          (run_timer_value c3WitnessInput)] :=
  ⟨⟨by decide, by decide, by decide⟩,
    C3_announces_oldest_qualifying c3WitnessInput (by decide) (by decide) (by decide)⟩

/-- C4: in a successful run with a nonempty recent list, if the newest
entry's timestamp differs from the persisted cursor's timestamp then the
cursor is overwritten with that entry's reduced form, and every cursor
write precedes every webhook post in the effect trace; if the timestamps
agree, the cursor key is not written at all. -/
theorem C4_cursor_update_order (inp : RunInput) (latest : NewUserScore)
    (rest : List NewUserScore)
    (htok : (get_osu_v2_token inp.cached_token inp.token_resp).isSome = true)
    (hrec : inp.recent_ok = true) (hbest : inp.best_ok = true)
    (hr : inp.recent = latest :: rest) :
    (cursorDiffers latest (parse_cursor inp.stored_cursor) = true →
      cursor_after inp = StoredCursor.valid (score_from_api latest)) ∧
    (cursorDiffers latest (parse_cursor inp.stored_cursor) = false →
      cursor_after inp = inp.stored_cursor ∧
      ∀ s, Event.cursorWrite s ∉ run_trace inp) ∧
    (∀ i j s a, (run_trace inp).get? i = some (Event.cursorWrite s) →
      (run_trace inp).get? j = some (Event.webhookPost a) → i < j) := by
  have htr := run_trace_success inp htok hrec hbest
  rw [hr] at htr
  have htr2 : run_trace inp =
      (if cursorDiffers latest (parse_cursor inp.stored_cursor) then
        [Event.cursorWrite (score_from_api latest)]
      else []) ++
      announce_loop (top_100_pp_values inp.best) (run_timer_value inp)
        (run_new_scores inp) := htr
  have hca := cursor_after_success inp htok hrec hbest
  rw [hr] at hca
  have hca2 : cursor_after inp =
      (if cursorDiffers latest (parse_cursor inp.stored_cursor) then
        StoredCursor.valid (score_from_api latest)
      else inp.stored_cursor) := hca
  refine ⟨?_, ?_, ?_⟩
  · intro hd
    rw [hca2, if_pos hd]
  · intro hd
    have hnd : ¬ (cursorDiffers latest (parse_cursor inp.stored_cursor) = true) := by
      simp [hd]
    constructor
    · rw [hca2, if_neg hnd]
    · intro s hmem
      rw [htr2, if_neg hnd, List.nil_append] at hmem
      rcases announce_loop_only_posts _ _ _ _ hmem with ⟨a, ha⟩
      exact Event.noConfusion ha
  · intro i j s a hi hj
    by_cases hd : cursorDiffers latest (parse_cursor inp.stored_cursor) = true
    · rw [htr2, if_pos hd] at hi hj
      cases i with
      | zero =>
        cases j with
        | zero =>
          rw [List.singleton_append, List.get?_cons_zero] at hj
          exact Event.noConfusion (Option.some.inj hj)
        | succ j2 => omega
      | succ i2 =>
        rw [List.singleton_append, List.get?_cons_succ] at hi
        rcases announce_loop_only_posts _ _ _ _ (List.get?_mem hi) with ⟨b, hb⟩
        exact Event.noConfusion hb
    · have hnd : ¬ (cursorDiffers latest (parse_cursor inp.stored_cursor) = true) := hd
      rw [htr2, if_neg hnd, List.nil_append] at hi
      rcases announce_loop_only_posts _ _ _ _ (List.get?_mem hi) with ⟨b, hb⟩
      exact Event.noConfusion hb

theorem C4_cursor_update_order_witness :
    ((get_osu_v2_token c4Input.cached_token c4Input.token_resp).isSome = true ∧
      c4Input.recent_ok = true ∧ c4Input.best_ok = true ∧
      c4Input.recent = c4Latest :: [sampleScore "t8" (some 500) 8]) ∧
    ((cursorDiffers c4Latest (parse_cursor c4Input.stored_cursor) = true →
        cursor_after c4Input = StoredCursor.valid (score_from_api c4Latest)) ∧
      (cursorDiffers c4Latest (parse_cursor c4Input.stored_cursor) = false →
        cursor_after c4Input = c4Input.stored_cursor ∧
        ∀ s, Event.cursorWrite s ∉ run_trace c4Input) ∧
      (∀ i j s a, (run_trace c4Input).get? i = some (Event.cursorWrite s) →
        (run_trace c4Input).get? j = some (Event.webhookPost a) → i < j)) :=
  ⟨⟨by decide, by decide, by decide, by decide⟩,
    C4_cursor_update_order c4Input c4Latest [sampleScore "t8" (some 500) 8]
      (by decide) (by decide) (by decide) (by decide)⟩

/-- C7: the code's threshold `top_100_pp` is the minimum of the best
list's pp values; every announced message carries a pp that is present in
the best list, at least that minimum, with displayed rank equal to its
index in the descending-sorted best values plus 1 (hence ≥ 1); a
candidate whose pp is null or strictly below the minimum is never
announced; and a candidate in `new_scores` whose pp is absent from the
best list resolves to rank 0 and is discarded. -/
theorem C7_threshold_and_rank (inp : RunInput) (m : Int)
    (htok : (get_osu_v2_token inp.cached_token inp.token_resp).isSome = true)
    (hrec : inp.recent_ok = true) (hbest : inp.best_ok = true)
    (hmin : top_100_pp inp.best = some m) :
    (m ∈ inp.best.map UserBestScore.pp ∧ ∀ v ∈ inp.best.map UserBestScore.pp, m ≤ v) ∧
    (∀ a ∈ run_messages inp, ∃ v, a.score.pp = some v ∧
      v ∈ inp.best.map UserBestScore.pp ∧ m ≤ v ∧
      a.score_rank = js_indexOf (top_100_pp_values inp.best) (some v) + 1 ∧
      1 ≤ a.score_rank) ∧
    (∀ s ∈ candidate_window inp.recent
        (last_seen_index inp.recent (parse_cursor inp.stored_cursor)),
      (s.pp = none ∨ ∃ v, s.pp = some v ∧ v < m) →
      ∀ a ∈ run_messages inp, a.score ≠ score_from_api s) ∧
    (∀ s ∈ run_new_scores inp, ∀ v, s.pp = some v →
      v ∉ inp.best.map UserBestScore.pp →
      rank_of (top_100_pp_values inp.best) s = 0 ∧
      ∀ a ∈ run_messages inp, a.score ≠ score_from_api s) := by
  have hmin2 : (top_100_pp_values inp.best).getLast? = some m := hmin
  have hmm : m ∈ top_100_pp_values inp.best := mem_of_getLast?_eq_some hmin2
  have hmm2 : m ∈ inp.best.map UserBestScore.pp := mem_sortDesc.mp hmm
  have hlb : ∀ v ∈ inp.best.map UserBestScore.pp, m ≤ v := by
    intro v hv
    exact sorted_ge_getLast?_le _ (sortDesc_sorted _) m hmin2 v (mem_sortDesc.mpr hv)
  have hmsg : ∀ a ∈ run_messages inp, ∃ v, a.score.pp = some v ∧
      v ∈ inp.best.map UserBestScore.pp ∧ m ≤ v ∧
      a.score_rank = js_indexOf (top_100_pp_values inp.best) (some v) + 1 ∧
      1 ≤ a.score_rank := by
    intro a ha
    have hm := run_messages_success inp htok hrec hbest
    cases hf : (run_new_scores inp).find? (nonzero_rank (top_100_pp_values inp.best)) with
    | none =>
      rw [hf] at hm
      rw [hm] at ha
      simp at ha
    | some s =>
      rw [hf] at hm
      rw [hm] at ha
      rcases List.mem_singleton.mp ha with rfl
      have hps : nonzero_rank (top_100_pp_values inp.best) s = true := List.find?_some hf
      have hrnk : rank_of (top_100_pp_values inp.best) s ≠ 0 := by
        rw [nonzero_rank] at hps
        exact bne_iff_ne.mp hps
      cases hsp : s.pp with
      | none =>
        exfalso
        apply hrnk
        rw [rank_of, hsp]
        rfl
      | some v =>
        have hne2 : js_indexOf (top_100_pp_values inp.best) (some v) ≠ -1 := by
          intro he
          apply hrnk
          rw [rank_of, hsp, he]
          rfl
        have hvmem : v ∈ top_100_pp_values inp.best := mem_of_js_indexOf_ne_neg_one hne2
        have hvmem2 : v ∈ inp.best.map UserBestScore.pp := mem_sortDesc.mp hvmem
        have hnn : 0 ≤ js_indexOf (top_100_pp_values inp.best) (some v) :=
          js_indexOf_nonneg_of_mem hvmem
        refine ⟨v, hsp, hvmem2, hlb v hvmem2, ?_, ?_⟩
        · show rank_of (top_100_pp_values inp.best) s =
            js_indexOf (top_100_pp_values inp.best) (some v) + 1
          rw [rank_of, hsp]
        · show 1 ≤ rank_of (top_100_pp_values inp.best) s
          rw [rank_of, hsp]
          omega
  have hnever : ∀ s ∈ candidate_window inp.recent
      (last_seen_index inp.recent (parse_cursor inp.stored_cursor)),
      (s.pp = none ∨ ∃ v, s.pp = some v ∧ v < m) →
      ∀ a ∈ run_messages inp, a.score ≠ score_from_api s := by
    intro s _ hbad a ha heq
    rcases hmsg a ha with ⟨v, hav, _, hmv, _, _⟩
    rw [heq] at hav
    rcases hbad with hnone | ⟨w, hw, hwm⟩
    · rw [show (score_from_api s).pp = s.pp from rfl, hnone] at hav
      exact Option.noConfusion hav
    · rw [show (score_from_api s).pp = s.pp from rfl, hw] at hav
      have hwv : w = v := Option.some.inj hav
      omega
  have habsent : ∀ s ∈ run_new_scores inp, ∀ v, s.pp = some v →
      v ∉ inp.best.map UserBestScore.pp →
      rank_of (top_100_pp_values inp.best) s = 0 ∧
      ∀ a ∈ run_messages inp, a.score ≠ score_from_api s := by
    intro s _ v hv hnv
    have hvs : v ∉ top_100_pp_values inp.best := fun hc => hnv (mem_sortDesc.mp hc)
    have hidx : js_indexOf (top_100_pp_values inp.best) (some v) = -1 :=
      js_indexOf_eq_neg_one_of_not_mem hvs
    constructor
    · rw [rank_of, hv, hidx]
      decide
    · intro a ha heq
      rcases hmsg a ha with ⟨v2, hav, hvm2, _, _, _⟩
      rw [heq, show (score_from_api s).pp = s.pp from rfl, hv] at hav
      have hvv : v = v2 := Option.some.inj hav
      rw [← hvv] at hvm2
      exact hnv hvm2
  exact ⟨⟨hmm2, hlb⟩, hmsg, hnever, habsent⟩

theorem C7_threshold_and_rank_witness :
    ((get_osu_v2_token c7Input.cached_token c7Input.token_resp).isSome = true ∧
      c7Input.recent_ok = true ∧ c7Input.best_ok = true ∧
      top_100_pp c7Input.best = some 300) ∧
    ((300 ∈ c7Input.best.map UserBestScore.pp ∧
        ∀ v ∈ c7Input.best.map UserBestScore.pp, (300 : Int) ≤ v) ∧
      (∀ a ∈ run_messages c7Input, ∃ v, a.score.pp = some v ∧
        v ∈ c7Input.best.map UserBestScore.pp ∧ (300 : Int) ≤ v ∧
        a.score_rank = js_indexOf (top_100_pp_values c7Input.best) (some v) + 1 ∧
        1 ≤ a.score_rank) ∧
      (∀ s ∈ candidate_window c7Input.recent
          (last_seen_index c7Input.recent (parse_cursor c7Input.stored_cursor)),
        (s.pp = none ∨ ∃ v, s.pp = some v ∧ v < (300 : Int)) →
        ∀ a ∈ run_messages c7Input, a.score ≠ score_from_api s) ∧
      (∀ s ∈ run_new_scores c7Input, ∀ v, s.pp = some v →
        v ∉ c7Input.best.map UserBestScore.pp →
        rank_of (top_100_pp_values c7Input.best) s = 0 ∧
        ∀ a ∈ run_messages c7Input, a.score ≠ score_from_api s)) :=
  ⟨⟨by decide, by decide, by decide, by decide⟩,
    C7_threshold_and_rank c7Input 300 (by decide) (by decide) (by decide) (by decide)⟩

/-- C8: running the pipeline a second time with the same fetch results —
so the second run's recent list carries the now-current cursor's
timestamp at position 0 — produces no announcement on the second run and
leaves the persisted cursor unchanged. -/
theorem C8_second_run_idempotent (inp : RunInput)
    (htok : (get_osu_v2_token inp.cached_token inp.token_resp).isSome = true)
    (hrec : inp.recent_ok = true) (hbest : inp.best_ok = true)
    (hne : inp.recent ≠ []) :
    run_messages { inp with stored_cursor := cursor_after inp } = [] ∧
    cursor_after { inp with stored_cursor := cursor_after inp } = cursor_after inp := by
  obtain ⟨latest, rest, hrc⟩ := List.exists_cons_of_ne_nil hne
  have hca := cursor_after_success inp htok hrec hbest
  rw [hrc] at hca
  have hca2 : cursor_after inp =
      (if cursorDiffers latest (parse_cursor inp.stored_cursor) then
        StoredCursor.valid (score_from_api latest)
      else inp.stored_cursor) := hca
  have hcur : ∃ c, parse_cursor (cursor_after inp) = some c ∧
      c.created_at = latest.ended_at := by
    by_cases hd : cursorDiffers latest (parse_cursor inp.stored_cursor) = true
    · refine ⟨score_from_api latest, ?_, rfl⟩
      rw [hca2, if_pos hd]
      rfl
    · rw [hca2, if_neg hd]
      cases hpc : parse_cursor inp.stored_cursor with
      | none =>
        exfalso
        apply hd
        rw [hpc]
        rfl
      | some c =>
        have heq : latest.ended_at = c.created_at := by
          by_contra hneq
          apply hd
          rw [hpc]
          simp only [cursorDiffers, bne_iff_ne, ne_eq]
          exact hneq
        exact ⟨c, rfl, heq.symm⟩
  obtain ⟨c, hc, hceq⟩ := hcur
  have hidx2 : last_seen_index inp.recent (parse_cursor (cursor_after inp)) = 0 := by
    rw [hrc, hc]
    have hfi : List.findIdx? (fun score => score.ended_at == c.created_at)
        (latest :: rest) = some 0 := by
      simp [List.findIdx?_cons, hceq]
    simp [last_seen_index, hfi]
  have hns2 : run_new_scores { inp with stored_cursor := cursor_after inp } = [] := by
    show new_scores_of inp.recent (parse_cursor (cursor_after inp))
      (top_100_pp inp.best) = []
    rw [new_scores_of, hidx2]
    simp [candidate_window]
  have hmsg2 := run_messages_success { inp with stored_cursor := cursor_after inp }
    htok hrec hbest
  rw [hns2] at hmsg2
  have hd2 : cursorDiffers latest (parse_cursor (cursor_after inp)) = false := by
    rw [hc]
    simp only [cursorDiffers, hceq, bne_self_eq_false]
  constructor
  · rw [hmsg2]
    rfl
  · have hca3 := cursor_after_success { inp with stored_cursor := cursor_after inp }
      htok hrec hbest
    have hca3b : cursor_after { inp with stored_cursor := cursor_after inp } =
        match inp.recent with
        | [] => cursor_after inp
        | latest_score :: _ =>
          if cursorDiffers latest_score (parse_cursor (cursor_after inp)) then
            StoredCursor.valid (score_from_api latest_score)
          else cursor_after inp := hca3
    have hmatch : (match inp.recent with
        | [] => cursor_after inp
        | latest_score :: _ =>
          if cursorDiffers latest_score (parse_cursor (cursor_after inp)) then
            StoredCursor.valid (score_from_api latest_score)
          else cursor_after inp) =
        (if cursorDiffers latest (parse_cursor (cursor_after inp)) then
          StoredCursor.valid (score_from_api latest)
        else cursor_after inp) := by
      rw [hrc]
    have hnd2 : ¬ (cursorDiffers latest (parse_cursor (cursor_after inp)) = true) := by
      simp [hd2]
    rw [hca3b.trans hmatch, if_neg hnd2]

theorem C8_second_run_idempotent_witness :
    ((get_osu_v2_token c8Input.cached_token c8Input.token_resp).isSome = true ∧
      c8Input.recent_ok = true ∧ c8Input.best_ok = true ∧ c8Input.recent ≠ []) ∧
    (run_messages { c8Input with stored_cursor := cursor_after c8Input } = [] ∧
      cursor_after { c8Input with stored_cursor := cursor_after c8Input } =
        cursor_after c8Input) :=
  ⟨⟨by decide, by decide, by decide, by decide⟩,
    C8_second_run_idempotent c8Input (by decide) (by decide) (by decide) (by decide)⟩

end Farmathon
